import Mathlib

/-!
Verification development for the CRITs Signature handler core
(`crits/signatures/handlers.py`): content-addressed deduplication,
link-based version chaining, relationship propagation, line-anchored
highlights and inline comments, and the surrounding error handling.

The Python handlers are embedded shallowly: the MongoDB collection becomes
an explicit `Db` state threaded through every operation, dictionaries
returned by the handlers become small inductive result types (with a
dedicated constructor for the Python `None` return and for exceptions that
escape a handler), and the external collaborators that are not part of the
repository slice (the `Signature` document class methods, `dateutil`
parsing, the access-control and resolver services) are modelled from the
specification, each marked in its doc comment.
-/

namespace Crits

/-- Modelled from the spec: one provenance instance inside an embedded
source entry, recording when/how/by whom content was obtained
(`crits.core.crits_mongoengine` is not part of the source slice). -/
structure SourceInstance where
  date : Nat
  method : String
  reference : String
  analyst : String
deriving Repr, DecidableEq

/-- Modelled from the spec: an `EmbeddedSource` provenance entry — a source
name together with its accumulated instances
(`crits.core.crits_mongoengine` is not part of the source slice). -/
structure EmbeddedSource where
  name : String
  instances : List SourceInstance
deriving Repr, DecidableEq

/-- Modelled from the spec: a typed relationship entry
(relatedObjectType, relatedObjectId, relationshipKind, relationshipDate),
attributed to the actor who created it. -/
structure Rel where
  rel_type : String
  rel_object_id : String
  relationship : String
  relationship_date : Option Nat
  analyst : String
deriving Repr, DecidableEq

/-- Modelled from the spec: a line highlight with its line data, an
optional comment and an optional date, plus author/creation metadata. -/
structure Highlight where
  line : Int
  line_data : String
  comment : String
  line_date : Option String
  analyst : String
  date : Nat
deriving Repr, DecidableEq

/-- Modelled from the spec: a line-anchored inline comment; the list is
append-only and multiple comments per line are permitted. -/
structure InlineComment where
  line : Int
  comment : String
  analyst : String
  date : Nat
deriving Repr, DecidableEq

/-- The Signature document. `id = none` means the in-memory record has not
been persisted yet; saving assigns the next fresh id. -/
structure Signature where
  id : Option Nat := none
  md5 : String := ""
  data : String := ""
  title : String := ""
  description : String := ""
  data_type : String := ""
  link_id : Option String := none
  version : Nat := 0
  sources : List EmbeddedSource := []
  relationships : List Rel := []
  highlights : List Highlight := []
  inlines : List InlineComment := []
  buckets : List String := []
  tickets : List String := []
  created : Nat := 0
deriving Repr, DecidableEq

/-- The persistence state: the Signature collection together with the
registered SignatureType names, the id counter, and the external
collaborators (admin list for access control, resolvable objects for the
relationship resolver, a persistence-validation oracle, and a clock). -/
structure Db where
  sigs : List Signature := []
  sigTypes : List String := []
  nextId : Nat := 0
  admins : List String := []
  objects : List (String × String) := []
  saveError : Option String := none
  clock : Nat := 0
deriving Repr, DecidableEq

/-- Replace the first element satisfying `p` by its image under `f`
(the Python pattern of mutating the first match inside a `for` loop). -/
def modifyFirst (p : α → Bool) (f : α → α) : List α → List α
  | [] => []
  | x :: xs => if p x then f x :: xs else x :: modifyFirst p f xs

/-- Python truthiness of an optional string (`None` and `""` are falsy). -/
def optTruthy : Option String → Bool
  | none => false
  | some s => s != ""

/-- The dynamically-typed `source_name` argument of
`handle_signature_file`: a bare string, an `EmbeddedSource`, a list, or a
value of some other type (the Python code only tests the first three). -/
inductive SourceItem where
  | embedded (e : EmbeddedSource)
  | other (n : Int)
deriving Repr, DecidableEq

inductive SourceInput where
  | pyNone
  | str (s : String)
  | embedded (e : EmbeddedSource)
  | list (xs : List SourceItem)
  | intVal (n : Int)
deriving Repr, DecidableEq

/-- Python truthiness of a `source_name` value. -/
def SourceInput.truthy : SourceInput → Bool
  | .pyNone => false
  | .str s => s != ""
  | .embedded _ => true
  | .list xs => !xs.isEmpty
  | .intVal n => n != 0

/-- Modelled from the spec: `create_embedded_source` builds a provenance
entry from a bare source name with one instance
(`crits.core.crits_mongoengine` is not part of the source slice). -/
def create_embedded_source (name : String) (date : Nat)
    (method reference analyst : String) : EmbeddedSource :=
  { name := name, instances := [⟨date, method, reference, analyst⟩] }

/-- Modelled from the spec: `Signature.add_source` merges provenance by
source name — an existing source entry with the same name gains a new
instance rather than duplicating the entry; a new name is appended. -/
def Signature.add_source (sig : Signature) (src : EmbeddedSource) : Signature :=
  if sig.sources.any (fun e => e.name == src.name) then
    let merged := modifyFirst (fun e => e.name == src.name)
      (fun e => { e with instances := e.instances ++ src.instances }) sig.sources
    { sig with sources := merged }
  else
    { sig with sources := sig.sources ++ [src] }

/-- Modelled from the spec: `Signature.add_relationship` re-creates a
relationship against this record with the given kind and date, attributed
to the current actor. -/
def Signature.add_relationship (sig : Signature)
    (rel_type rel_object_id relationship : String)
    (rel_date : Option Nat) (analyst : String) : Signature :=
  { sig with relationships :=
      sig.relationships ++ [⟨rel_type, rel_object_id, relationship, rel_date, analyst⟩] }

/-- Modelled from the spec: inline comments are append-only; multiple
comments per line are permitted. -/
def Signature.add_inline_comment (sig : Signature) (comment : String)
    (line : Int) (analyst : String) (now : Nat) : Signature :=
  { sig with inlines := sig.inlines ++ [⟨line, comment, analyst, now⟩] }

/-- Modelled from the spec: `add_highlight` appends to `highlights`
unconditionally — duplicate lines are not rejected at this layer. -/
def Signature.add_highlight (sig : Signature) (line : Int)
    (line_data : String) (analyst : String) (now : Nat) : Signature :=
  { sig with highlights := sig.highlights ++ [⟨line, line_data, "", none, analyst, now⟩] }

/-- Modelled from the spec: `remove_highlight` removes all highlights
matching the given line. -/
def Signature.remove_highlight (sig : Signature) (line : Int) : Signature :=
  { sig with highlights := sig.highlights.filter (fun h => h.line != line) }

/-- Modelled from the spec: bucket tagging is delegated to an external
collaborator; modelled as appending the tag. -/
def Signature.add_bucket_list (sig : Signature) (b : String) : Signature :=
  { sig with buckets := sig.buckets ++ [b] }

/-- Modelled from the spec: ticket tagging is delegated to an external
collaborator; modelled as appending the ticket. -/
def Signature.add_ticket (sig : Signature) (t : String) : Signature :=
  { sig with tickets := sig.tickets ++ [t] }

/-- `Signature.objects(md5=m).first()`. -/
def Db.findByMd5 (db : Db) (m : String) : Option Signature :=
  db.sigs.find? (fun s => s.md5 == m)

/-- `Signature.objects(id=i).first()`. -/
def Db.findById (db : Db) (i : Nat) : Option Signature :=
  db.sigs.find? (fun s => s.id == some i)

/-- `Signature.objects(link_id=l).first()`. -/
def Db.findByLink (db : Db) (l : Option String) : Option Signature :=
  db.sigs.find? (fun s => s.link_id == l)

/-- `len(Signature.objects(link_id=l))`. -/
def Db.countByLink (db : Db) (l : Option String) : Nat :=
  (db.sigs.filter (fun s => s.link_id == l)).length

/-- Modelled from the spec: the persistence layer — a save commits
atomically or raises `ValidationError` (the `saveError` oracle stands for
the external schema validation). A record without an id receives the next
fresh id and is appended; a record with an id replaces the stored record
with that id. -/
def Db.save (db : Db) (sig : Signature) : Except String (Signature × Db) :=
  match db.saveError with
  | some m => .error m
  | none =>
    match sig.id with
    | none =>
      let sig' := { sig with id := some db.nextId }
      .ok (sig', { db with sigs := db.sigs ++ [sig'], nextId := db.nextId + 1 })
    | some i =>
      .ok (sig, { db with sigs := db.sigs.map (fun r => if r.id == some i then sig else r) })

/-- Modelled from the spec: the external relationship resolver
`resolve(objectType, objectId) -> Object|none`; `Db.objects` lists the
resolvable (type, id) pairs. -/
def Db.class_from_id (db : Db) (t i : String) : Bool :=
  db.objects.contains (t, i)

/-- Modelled from the spec: access control `isAdmin(user)`. -/
def Db.is_admin (db : Db) (u : String) : Bool :=
  db.admins.contains u

/-- Outcome of `handle_signature_file`: the `{'success': False, 'message'}`
dictionary, the `{'success': True, '_id'}` dictionary, or an uncaught
`ValidationError` escaping the handler. -/
inductive HandleResult where
  | failure (message : String)
  | success (sid : Nat)
  | valError (message : String)
deriving Repr, DecidableEq

/-- `handle_signature_file` (handlers.py lines 284-424): validation, md5
dedup, provenance merging, link/version assignment, optional relationship
propagation, tagging, persistence. The `run_triage` call is external and
fire-and-forget, with no effect on this state. -/
def handle_signature_file (db : Db) (data : String) (source_name : SourceInput)
    (user : String) (description : String) (title : String) (data_type : String)
    (link_id : Option String) (method : String) (reference : String)
    (copy_rels : Bool) (bucket_list : Option String) (ticket : Option String) :
    HandleResult × Db :=
  if data == "" || title == "" || data_type == "" then
    (.failure "No data object, title, or data type passed in", db)
  else if !source_name.truthy then
    (.failure "Missing source information.", db)
  else if (db.sigTypes.find? (fun n => n == data_type)).isNone then
    (.failure "Invalid data type passed in", db)
  else if data.length ≤ 0 then
    (.failure "Data length <= 0", db)
  else
    let md5 := data
    let timestamp := db.clock
    let found := db.findByMd5 md5
    let sig0 : Signature :=
      match found with
      | some s => s
      | none =>
        { created := timestamp, description := description, md5 := md5,
          data := data, title := title, data_type := data_type }
    let sig1 : Signature :=
      match source_name with
      | .str s =>
        if s.length > 0 then
          sig0.add_source (create_embedded_source s timestamp method reference user)
        else sig0
      | .embedded e => sig0.add_source e
      | .list xs =>
        if xs.length > 0 then
          xs.foldl (fun sg it =>
            match it with
            | .embedded e => sg.add_source e
            | .other _ => sg) sig0
        else sig0
      | _ => sig0
    let linked := optTruthy link_id
    let sig2 := if linked then { sig1 with link_id := link_id } else sig1
    let midStep : Except String (Signature × Db) :=
      if linked && copy_rels then
        match db.findByLink link_id with
        | some rd2 =>
          if rd2.relationships.length != 0 then
            match db.save sig2 with
            | .error m => .error m
            | .ok (sig3, db1) =>
              let sig4 := rd2.relationships.foldl (fun sg rel =>
                if db1.class_from_id rel.rel_type rel.rel_object_id then
                  sg.add_relationship rel.rel_type rel.rel_object_id rel.relationship
                    rel.relationship_date user
                else sg) sig3
              .ok (sig4, db1)
          else .ok (sig2, db)
        | none => .ok (sig2, db)
      else .ok (sig2, db)
    match midStep with
    | .error m => (.valError m, db)
    | .ok (sig4, db2) =>
      let sig5 := { sig4 with version := db2.countByLink link_id + 1 }
      let sig6 :=
        match bucket_list with
        | some b => sig5.add_bucket_list b
        | none => sig5
      let sig7 :=
        match ticket with
        | some t => sig6.add_ticket t
        | none => sig6
      match db2.save sig7 with
      | .error m => (.valError m, db2)
      | .ok (sig8, db3) => (.success (sig8.id.getD 0), db3)

/-- Outcome of `update_signature_type`: the Python `None` return (unknown
type), `{'success': True}`, `{'success': False, 'message'}`, or the
`AttributeError` raised by dereferencing a missing record. -/
inductive TypeUpdateResult where
  | pyNone
  | ok
  | failed (message : String)
  | attrError
deriving Repr, DecidableEq

/-- `update_signature_type` (handlers.py lines 426-449). -/
def update_signature_type (db : Db) (sid : Nat) (data_type : String)
    (analyst : String) : TypeUpdateResult × Db :=
  let sig? := db.findById sid
  match db.sigTypes.find? (fun n => n == data_type) with
  | none => (.pyNone, db)
  | some tname =>
    match sig? with
    | none => (.attrError, db)
    | some sig =>
      let sig' := { sig with data_type := tname }
      match db.save sig' with
      | .ok (_, db') => (.ok, db')
      | .error m => (.failed m, db)

/-- Outcome of the highlight-comment update: the Python `None` return
(missing record) or a `{'success', 'message'}` dictionary. -/
inductive HlResult where
  | pyNone
  | res (success : Bool) (message : Option String)
deriving Repr, DecidableEq

/-- `update_signature_highlight_comment` (handlers.py lines 451-478):
mutate the first highlight with an exact line match, else soft-fail. -/
def update_signature_highlight_comment (db : Db) (sid : Nat) (comment : String)
    (line : Int) (analyst : String) : HlResult × Db :=
  match db.findById sid with
  | none => (.pyNone, db)
  | some sig =>
    if sig.highlights.any (fun h => h.line == line) then
      let hls := modifyFirst (fun h => h.line == line)
        (fun h => { h with comment := comment }) sig.highlights
      let sig' := { sig with highlights := hls }
      match db.save sig' with
      | .ok (_, db') => (.res true none, db')
      | .error m => (.res false (some m), db)
    else
      (.res false (some "Could not find highlight."), db)

/-- Outcome of the highlight-date update: as above, plus the `ValueError`
raised by the date parser escaping the handler. -/
inductive HlDateResult where
  | pyNone
  | res (success : Bool) (message : Option String)
  | valueError (input : String)
deriving Repr, DecidableEq

/-- Modelled from the spec: a token counts as date-like when it is
nonempty, made only of digits and date punctuation, and contains a digit
(`dateutil` is not part of the source slice). -/
def isDateToken (t : String) : Bool :=
  t != "" && t.data.all (fun c => c.isDigit || c == '-' || c == '/' || c == ':')
    && t.data.any (fun c => c.isDigit)

/-- Modelled from the spec: fuzzy parsing over a token list — tolerant of
extra non-date tokens, returning the first date-like token. -/
def parseFuzzyTokens (ts : List String) : Option String :=
  ts.find? isDateToken

/-- Split a character list into space-separated tokens (structural, so the
kernel can evaluate it). -/
def tokensAux : List Char → List Char → List String
  | [], acc => [String.mk acc.reverse]
  | c :: cs, acc =>
    if c.toNat = 32 then String.mk acc.reverse :: tokensAux cs []
    else tokensAux cs (c :: acc)

/-- Modelled from the spec: `dateutil.parser.parse(date, fuzzy=True)` —
`none` stands for the `ValueError` raised on unparseable input. -/
def parseFuzzy (s : String) : Option String :=
  parseFuzzyTokens (tokensAux s.data [])

/-- `update_signature_highlight_date` (handlers.py lines 480-507): fuzzy
date parse at the first matching highlight, else soft-fail. -/
def update_signature_highlight_date (db : Db) (sid : Nat) (date : String)
    (line : Int) (analyst : String) : HlDateResult × Db :=
  match db.findById sid with
  | none => (.pyNone, db)
  | some sig =>
    if sig.highlights.any (fun h => h.line == line) then
      match parseFuzzy date with
      | none => (.valueError date, db)
      | some d =>
        let hls := modifyFirst (fun h => h.line == line)
          (fun h => { h with line_date := some d }) sig.highlights
        let sig' := { sig with highlights := hls }
        match db.save sig' with
        | .ok (_, db') => (.res true none, db')
        | .error m => (.res false (some m), db)
    else
      (.res false (some "Could not find highlight."), db)

/-- Outcome of `new_inline_comment`: the `AttributeError` raised on a
missing record, the success dictionary, or the `ValidationError` object
returned (not raised) on a persistence failure. -/
inductive InlineResult where
  | attrError
  | ok (line : Int)
  | valErrObj (message : String)
deriving Repr, DecidableEq

/-- `new_inline_comment` (handlers.py lines 509-546). -/
def new_inline_comment (db : Db) (sid : Nat) (comment : String)
    (line_num : Int) (analyst : String) : InlineResult × Db :=
  match db.findById sid with
  | none => (.attrError, db)
  | some sig =>
    let sig' := sig.add_inline_comment comment line_num analyst db.clock
    match db.save sig' with
    | .ok (_, db') => (.ok line_num, db')
    | .error m => (.valErrObj m, db)

/-- Outcome of `new_highlight`, mirroring `InlineResult`. -/
inductive HighlightAddResult where
  | attrError
  | ok
  | valErrObj (message : String)
deriving Repr, DecidableEq

/-- `new_highlight` (handlers.py lines 548-575). -/
def new_highlight (db : Db) (sid : Nat) (line_num : Int) (line_data : String)
    (analyst : String) : HighlightAddResult × Db :=
  match db.findById sid with
  | none => (.attrError, db)
  | some sig =>
    let sig' := sig.add_highlight line_num line_data analyst db.clock
    match db.save sig' with
    | .ok (_, db') => (.ok, db')
    | .error m => (.valErrObj m, db)

/-- Outcome of `delete_highlight`: `AttributeError` on a missing record,
success, the returned `ValidationError` object, or `{'success': False}`
when the highlight count did not decrease. -/
inductive DeleteHlResult where
  | attrError
  | ok
  | valErrObj (message : String)
  | failed
deriving Repr, DecidableEq

/-- `delete_highlight` (handlers.py lines 577-605): success is decided by
observing that the highlight count strictly decreased. -/
def delete_highlight (db : Db) (sid : Nat) (line_num : Int)
    (analyst : String) : DeleteHlResult × Db :=
  match db.findById sid with
  | none => (.attrError, db)
  | some sig =>
    let before := sig.highlights.length
    let sig' := sig.remove_highlight line_num
    if sig'.highlights.length < before then
      match db.save sig' with
      | .ok (_, db') => (.ok, db')
      | .error m => (.valErrObj m, db)
    else
      (.failed, db)

/-- `delete_signature` (handlers.py lines 607-626): gated on `is_admin`;
returns a bare boolean. -/
def delete_signature (db : Db) (sid : Nat) (username : String) : Bool × Db :=
  if db.is_admin username then
    match db.findById sid with
    | some _ => (true, { db with sigs := db.sigs.filter (fun r => r.id != some sid) })
    | none => (false, db)
  else
    (false, db)

/-- Total number of provenance instances across a record's sources. -/
def totalInstances (srcs : List EmbeddedSource) : Nat :=
  (srcs.map (fun e => e.instances.length)).sum

/-- One submission's metadata for a version-chain run. -/
structure Submission where
  data : String
  source : String
  user : String
  description : String
  title : String
  data_type : String
deriving Repr, DecidableEq

/-- One `handle_signature_file` call into the chain `link` without
relationship copying, keeping only the resulting state. -/
def submitOne (db : Db) (link : String) (sub : Submission) : Db :=
  (handle_signature_file db sub.data (.str sub.source) sub.user sub.description
    sub.title sub.data_type (some link) "" "" false none none).2

/-- Sequential submissions into the chain `link`. -/
def submitChain (db : Db) (link : String) (subs : List Submission) : Db :=
  subs.foldl (fun d sub => submitOne d link sub) db

/-! ### Helper lemmas -/

theorem string_length_ne_zero {s : String} (h : s ≠ "") : s.length ≠ 0 := by
  intro hl
  apply h
  cases s with
  | mk l =>
    cases l with
    | nil => rfl
    | cons c cs => simp [String.length] at hl

theorem find?_id_map_replace (l : List Signature) (i : Nat) (s' : Signature)
    (h : s'.id = some i) :
    (l.map (fun r => if r.id == some i then s' else r)).find?
        (fun r => r.id == some i) =
      (l.find? (fun r => r.id == some i)).map (fun _ => s') := by
  induction l with
  | nil => rfl
  | cons x xs ih =>
    by_cases hx : x.id = some i
    · have hrepl : (if (x.id == some i) = true then s' else x) = s' := by simp [hx]
      simp only [List.map_cons, hrepl]
      rw [List.find?_cons_of_pos _ (by simp [h]), List.find?_cons_of_pos _ (by simp [hx])]
      simp
    · have hrepl : (if (x.id == some i) = true then s' else x) = x := by simp [hx]
      simp only [List.map_cons, hrepl]
      rw [List.find?_cons_of_neg _ (by simp [hx]), List.find?_cons_of_neg _ (by simp [hx])]
      exact ih

theorem add_source_fields (sig : Signature) (src : EmbeddedSource) :
    (sig.add_source src).id = sig.id ∧ (sig.add_source src).title = sig.title ∧
    (sig.add_source src).description = sig.description ∧
    (sig.add_source src).link_id = sig.link_id ∧
    (sig.add_source src).md5 = sig.md5 := by
  unfold Signature.add_source
  split <;> exact ⟨rfl, rfl, rfl, rfl, rfl⟩

theorem totalInstances_modifyFirst (src : EmbeddedSource) (l : List EmbeddedSource)
    (h : l.any (fun e => e.name == src.name) = true) :
    totalInstances (modifyFirst (fun e => e.name == src.name)
        (fun e => { e with instances := e.instances ++ src.instances }) l)
      = totalInstances l + src.instances.length := by
  induction l with
  | nil => simp at h
  | cons x xs ih =>
    unfold modifyFirst
    by_cases hx : (x.name == src.name) = true
    · simp only [hx, if_true, totalInstances, List.map_cons, List.sum_cons,
        List.length_append]
      omega
    · have h' : xs.any (fun e => e.name == src.name) = true := by
        simpa [hx] using h
      simp only [hx, if_false, Bool.false_eq_true, totalInstances, List.map_cons,
        List.sum_cons]
      have := ih h'
      simp only [totalInstances] at this
      omega

theorem totalInstances_add_source (sig : Signature) (src : EmbeddedSource) :
    totalInstances (sig.add_source src).sources
      = totalInstances sig.sources + src.instances.length := by
  unfold Signature.add_source
  by_cases h : sig.sources.any (fun e => e.name == src.name) = true
  · simpa [h] using totalInstances_modifyFirst src sig.sources h
  · simp [h, totalInstances]

theorem save_existing (db : Db) (sig' : Signature) (i : Nat)
    (hid : sig'.id = some i) (hsave : db.saveError = none) :
    db.save sig' = .ok (sig',
      { db with sigs := db.sigs.map (fun r => if r.id == some i then sig' else r) }) := by
  unfold Db.save
  rw [hsave, hid]

theorem findById_map_replace (db : Db) (sig' : Signature) (i : Nat)
    (hid : sig'.id = some i) (hex : (db.findById i).isSome = true) :
    Db.findById
        { db with sigs := db.sigs.map (fun r => if r.id == some i then sig' else r) } i
      = some sig' := by
  unfold Db.findById at hex ⊢
  rw [find?_id_map_replace db.sigs i sig' hid]
  obtain ⟨r, hr⟩ := Option.isSome_iff_exists.mp hex
  simp [hr]

/-! ### Claim C3 -/

/-- Claim C3: `handle_signature_file` rejects the submission with a
success-false invalid-input result and creates no record whenever data,
title or data_type is missing/empty, no source_name is supplied, the
declared data_type is not a registered SignatureType, or the content
length is non-positive. -/
theorem C3_validation_rejects (db : Db) (data : String) (source_name : SourceInput)
    (user description title data_type : String) (link_id : Option String)
    (method reference : String) (copy_rels : Bool) (bucket_list ticket : Option String)
    (h : data = "" ∨ title = "" ∨ data_type = "" ∨ source_name.truthy = false ∨
      data_type ∉ db.sigTypes ∨ data.length ≤ 0) :
    (∃ m, (handle_signature_file db data source_name user description title data_type
        link_id method reference copy_rels bucket_list ticket).1 = .failure m) ∧
    (handle_signature_file db data source_name user description title data_type
        link_id method reference copy_rels bucket_list ticket).2 = db := by
  unfold handle_signature_file
  by_cases h1 : (data == "" || title == "" || data_type == "") = true
  · simp [h1]
  · by_cases h2 : source_name.truthy = true
    · by_cases h3 : (db.sigTypes.find? (fun n => n == data_type)).isNone = true
      · simp [h1, h2, h3]
      · by_cases h4 : data.length ≤ 0
        · simp [h1, h2, h3, h4]
        · exfalso
          simp only [Bool.or_eq_true, beq_iff_eq, not_or] at h1
          obtain ⟨⟨hd, ht⟩, hdt⟩ := h1
          have h3' : (db.sigTypes.find? (fun n => n == data_type)).isSome = true := by
            cases hfe : db.sigTypes.find? (fun n => n == data_type) with
            | none => rw [hfe] at h3; simp at h3
            | some v => simp
          obtain ⟨x, hmem, hx⟩ := List.find?_isSome.mp h3'
          rw [beq_iff_eq] at hx
          subst hx
          rcases h with h | h | h | h | h | h
          · exact hd h
          · exact ht h
          · exact hdt h
          · rw [h2] at h; cases h
          · exact h hmem
          · exact h4 h
    · simp only [Bool.not_eq_true] at h2
      simp [h1, h2]

def dbC3 : Db := { sigTypes := ["yara"] }

theorem C3_validation_rejects_witness :
    (∃ m, (handle_signature_file dbC3 "" (.str "S") "u" "" "T" "yara"
        none "" "" false none none).1 = .failure m) ∧
    (handle_signature_file dbC3 "" (.str "S") "u" "" "T" "yara"
        none "" "" false none none).2 = dbC3 :=
  C3_validation_rejects dbC3 "" (.str "S") "u" "" "T" "yara"
    none "" "" false none none (Or.inl rfl)

/-! ### Claim C10 -/

def dbC10 : Db := { sigTypes := ["yara"], clock := 7 }

/-- Claim C10: a truthy `source_name` that is neither a string, an
EmbeddedSource, nor a list of EmbeddedSource items (here the integer 42)
passes source validation, and `handle_signature_file` creates and
persists a new record whose sources list is empty — so "every persisted
record has at least one provenance entry" is not an invariant maintained
by submission. -/
theorem C10_nonstring_source_empty_provenance :
    SourceInput.truthy (.intVal 42) = true ∧
    (handle_signature_file dbC10 "ruleA" (.intVal 42) "alice" "d" "T" "yara"
        none "" "" false none none).1 = .success 0 ∧
    ((handle_signature_file dbC10 "ruleA" (.intVal 42) "alice" "d" "T" "yara"
        none "" "" false none none).2.findById 0).map (fun r => r.sources) = some [] ∧
    (handle_signature_file dbC10 "ruleA" (.intVal 42) "alice" "d" "T" "yara"
        none "" "" false none none).2.sigs.length = 1 :=
  ⟨rfl, rfl, rfl, rfl⟩

/-! ### Claim C1 -/

def dbC1 : Db := { sigTypes := ["yara"], clock := 5 }

/-- The state after a first submission of content "ruleA". -/
def dbC1b : Db :=
  (handle_signature_file dbC1 "ruleA" (.str "OSINT") "alice" "d1" "T1" "yara"
    none "" "" false none none).2

/-- The record persisted by that first submission. -/
def rC1 : Signature :=
  { id := some 0, md5 := "ruleA", data := "ruleA", title := "T1",
    description := "d1", data_type := "yara", version := 1,
    sources := [⟨"OSINT", [⟨5, "", "", "alice"⟩]⟩], created := 5 }

/-- Claim C1 (counterexample): resubmitting byte-identical content reuses
the record but does NOT leave its version unchanged — the version is
recomputed as the link-group count plus one, so it moves from 1 to 2. -/
theorem C1_counterexample :
    (dbC1b.findById 0).map (fun r => r.version) = some 1 ∧
    (handle_signature_file dbC1b "ruleA" (.str "OtherFeed") "alice" "d2" "T2" "yara"
        none "" "" false none none).1 = .success 0 ∧
    (handle_signature_file dbC1b "ruleA" (.str "OtherFeed") "alice" "d2" "T2" "yara"
        none "" "" false none none).2.sigs.length = 1 ∧
    ((handle_signature_file dbC1b "ruleA" (.str "OtherFeed") "alice" "d2" "T2" "yara"
        none "" "" false none none).2.findById 0).map (fun r => r.version) = some 2 :=
  ⟨rfl, rfl, rfl, rfl⟩

/-- Claim C1 (amended): for identical content, the second call reuses the
existing record (matched by content MD5): exactly one record remains, the
supplied title and description are ignored, and a new provenance instance
is appended — but the record's version is NOT left unchanged: it is
recomputed as `count(records sharing the supplied link_id, the record
itself included) + 1`. -/
theorem C1_amended (db : Db) (data sname user description title data_type : String)
    (method reference : String) (r : Signature) (i : Nat)
    (hd : data ≠ "") (ht : title ≠ "") (hdt0 : data_type ≠ "")
    (hdt : data_type ∈ db.sigTypes) (hs : sname ≠ "")
    (hsave : db.saveError = none)
    (hfound : db.findByMd5 data = some r) (hid : r.id = some i) :
    (handle_signature_file db data (.str sname) user description title data_type
        none method reference false none none).1 = .success i ∧
    (handle_signature_file db data (.str sname) user description title data_type
        none method reference false none none).2.sigs.length = db.sigs.length ∧
    ∃ r', (handle_signature_file db data (.str sname) user description title data_type
        none method reference false none none).2.findById i = some r' ∧
      r'.title = r.title ∧ r'.description = r.description ∧
      totalInstances r'.sources = totalInstances r.sources + 1 ∧
      r'.version = db.countByLink none + 1 := by
  have g1 : (data == "" || title == "" || data_type == "") = false := by
    simp [hd, ht, hdt0]
  have g2 : (SourceInput.truthy (.str sname)) = true := by
    simp [SourceInput.truthy, hs]
  obtain ⟨t, hfind⟩ : ∃ t, db.sigTypes.find? (fun n => n == data_type) = some t :=
    Option.isSome_iff_exists.mp (List.find?_isSome.mpr ⟨data_type, hdt, by simp⟩)
  have g4 : ¬ data.length ≤ 0 := by
    have := string_length_ne_zero hd; omega
  have g5 : 0 < sname.length :=
    Nat.pos_of_ne_zero (string_length_ne_zero hs)
  have hids : ({ r.add_source (create_embedded_source sname db.clock method reference user)
      with version := db.countByLink none + 1 } : Signature).id = some i := by
    show (r.add_source (create_embedded_source sname db.clock method reference user)).id
      = some i
    rw [(add_source_fields r (create_embedded_source sname db.clock method reference user)).1,
      hid]
  have hkey : handle_signature_file db data (.str sname) user description title data_type
      none method reference false none none
      = (.success i, { db with sigs := db.sigs.map (fun x =>
          if x.id == some i then
            { r.add_source (create_embedded_source sname db.clock method reference user)
              with version := db.countByLink none + 1 }
          else x) }) := by
    unfold handle_signature_file
    simp only [g1, g2, g4, hfind, Bool.not_true, Bool.false_eq_true, if_false,
      Option.isNone_some, hfound, if_pos g5]
    simp only [optTruthy, Bool.false_and, Bool.false_eq_true, if_false]
    rw [save_existing db _ i hids hsave]
    have hgd : (r.add_source
        (create_embedded_source sname db.clock method reference user)).id = some i := by
      rw [(add_source_fields r _).1, hid]
    simp [hgd]
  refine ⟨?_, ?_, ?_⟩
  · rw [hkey]
  · rw [hkey]; exact List.length_map _ _
  · refine ⟨{ r.add_source (create_embedded_source sname db.clock method reference user)
        with version := db.countByLink none + 1 }, ?_, ?_, ?_, ?_, rfl⟩
    · rw [hkey]
      exact findById_map_replace db _ i hids
        (List.find?_isSome.mpr ⟨r, List.mem_of_find?_eq_some hfound, by simp [hid]⟩)
    · exact (add_source_fields r _).2.1
    · exact (add_source_fields r _).2.2.1
    · show totalInstances (r.add_source
          (create_embedded_source sname db.clock method reference user)).sources
        = totalInstances r.sources + 1
      exact totalInstances_add_source r _

theorem C1_amended_witness :
    (handle_signature_file dbC1b "ruleA" (.str "OtherFeed") "bob" "d2" "T2" "yara"
        none "" "" false none none).1 = .success 0 :=
  (C1_amended dbC1b "ruleA" "OtherFeed" "bob" "d2" "T2" "yara" "" "" rC1 0
    (by decide) (by decide) (by decide) (by decide) (by decide) rfl rfl rfl).1

/-! ### Claim C2 -/

theorem save_new (db : Db) (sig : Signature) (hid : sig.id = none)
    (hsave : db.saveError = none) :
    db.save sig = .ok ({ sig with id := some db.nextId },
      { db with sigs := db.sigs ++ [{ sig with id := some db.nextId }],
                nextId := db.nextId + 1 }) := by
  unfold Db.save
  rw [hsave, hid]

/-- The fresh in-memory record built by `handle_signature_file` for a new
chain submission, before provenance is attached. -/
@[reducible] def chainSig0 (db : Db) (sub : Submission) : Signature :=
  { created := db.clock, description := sub.description, md5 := sub.data,
    data := sub.data, title := sub.title, data_type := sub.data_type }

/-- That record with provenance, link and version attached. -/
@[reducible] def chainSig5 (db : Db) (link : String) (sub : Submission) : Signature :=
  { (chainSig0 db sub).add_source
      (create_embedded_source sub.source db.clock "" "" sub.user) with
    link_id := some link,
    version := db.countByLink (some link) + 1 }

/-- That record as persisted. -/
@[reducible] def chainNewRec (db : Db) (link : String) (sub : Submission) : Signature :=
  { chainSig5 db link sub with id := some db.nextId }

theorem chain_step (db : Db) (link : String) (sub : Submission)
    (hl : link ≠ "") (hsave : db.saveError = none)
    (hd : sub.data ≠ "") (ht : sub.title ≠ "") (hdt0 : sub.data_type ≠ "")
    (hdt : sub.data_type ∈ db.sigTypes) (hs : sub.source ≠ "")
    (hfresh : ∀ r ∈ db.sigs, r.md5 ≠ sub.data) :
    ∃ newRec : Signature,
      (submitOne db link sub).sigs = db.sigs ++ [newRec] ∧
      newRec.link_id = some link ∧
      newRec.version = db.countByLink (some link) + 1 ∧
      newRec.md5 = sub.data ∧
      (submitOne db link sub).sigTypes = db.sigTypes ∧
      (submitOne db link sub).saveError = none ∧
      (submitOne db link sub).clock = db.clock := by
  have hfound : db.findByMd5 sub.data = none := by
    unfold Db.findByMd5
    rw [List.find?_eq_none]
    intro x hx
    simp [hfresh x hx]
  have g1 : (sub.data == "" || sub.title == "" || sub.data_type == "") = false := by
    simp [hd, ht, hdt0]
  have g2 : (SourceInput.truthy (.str sub.source)) = true := by
    simp [SourceInput.truthy, hs]
  obtain ⟨t, hfind⟩ : ∃ t, db.sigTypes.find? (fun n => n == sub.data_type) = some t :=
    Option.isSome_iff_exists.mp (List.find?_isSome.mpr ⟨sub.data_type, hdt, by simp⟩)
  have g4 : ¬ sub.data.length ≤ 0 := by
    have := string_length_ne_zero hd; omega
  have g5 : 0 < sub.source.length := Nat.pos_of_ne_zero (string_length_ne_zero hs)
  have glink : optTruthy (some link) = true := by simp [optTruthy, hl]
  have hadd := add_source_fields (chainSig0 db sub)
    (create_embedded_source sub.source db.clock "" "" sub.user)
  have hidn : (chainSig5 db link sub).id = none := by
    show ((chainSig0 db sub).add_source
      (create_embedded_source sub.source db.clock "" "" sub.user)).id = none
    rw [hadd.1]
  have hkey : submitOne db link sub
      = { db with sigs := db.sigs ++ [chainNewRec db link sub],
                  nextId := db.nextId + 1 } := by
    unfold submitOne handle_signature_file
    simp only [g1, g2, g4, hfind, hfound, glink, Bool.not_true, Bool.false_eq_true,
      if_false, Option.isNone_some, if_pos g5, if_true, Bool.and_false]
    rw [save_new db (chainSig5 db link sub) hidn hsave]
  refine ⟨chainNewRec db link sub, ?_, rfl, rfl, ?_, ?_, ?_, ?_⟩
  · rw [hkey]
  · exact hadd.2.2.2.2
  · rw [hkey]
  · rw [hkey]; exact hsave
  · rw [hkey]

theorem submitChain_versions (link : String) (subs : List Submission) :
    ∀ db : Db, link ≠ "" → db.saveError = none →
    (∀ sub ∈ subs, sub.data ≠ "" ∧ sub.title ≠ "" ∧ sub.data_type ≠ "" ∧
      sub.data_type ∈ db.sigTypes ∧ sub.source ≠ "") →
    (subs.map (fun s => s.data)).Nodup →
    (∀ sub ∈ subs, ∀ r ∈ db.sigs, r.md5 ≠ sub.data) →
    ((submitChain db link subs).sigs.filter (fun r => r.link_id == some link)).map
        (fun r => r.version)
      = ((db.sigs.filter (fun r => r.link_id == some link)).map (fun r => r.version))
        ++ List.range' (db.countByLink (some link) + 1) subs.length := by
  induction subs with
  | nil =>
    intro db _ _ _ _ _
    simp [submitChain]
  | cons sub rest ih =>
    intro db hl hsave hvalid hnodup hfresh
    obtain ⟨nr, hsigs, hlink, hver, hmd5, htypes, herr, _⟩ :=
      chain_step db link sub hl hsave (hvalid sub (by simp)).1 (hvalid sub (by simp)).2.1
        (hvalid sub (by simp)).2.2.1 (hvalid sub (by simp)).2.2.2.1
        (hvalid sub (by simp)).2.2.2.2 (fun r hr => hfresh sub (by simp) r hr)
    have hstep : submitChain db link (sub :: rest)
        = submitChain (submitOne db link sub) link rest := rfl
    rw [hstep]
    have hcount : (submitOne db link sub).countByLink (some link)
        = db.countByLink (some link) + 1 := by
      unfold Db.countByLink
      rw [hsigs, List.filter_append]
      simp [hlink]
    have hfilter : ((submitOne db link sub).sigs.filter
          (fun r => r.link_id == some link)).map (fun r => r.version)
        = ((db.sigs.filter (fun r => r.link_id == some link)).map (fun r => r.version))
          ++ [db.countByLink (some link) + 1] := by
      rw [hsigs, List.filter_append]
      simp [hlink, hver]
    have h1 : (sub.data :: rest.map (fun s => s.data)).Nodup := by
      simpa using hnodup
    rw [ih (submitOne db link sub) hl herr ?_ ?_ ?_]
    · rw [hfilter, hcount, List.length_cons, List.range'_succ]
      simp
    · intro s hsmem
      obtain ⟨a, b, c, d, e⟩ := hvalid s (List.mem_cons_of_mem _ hsmem)
      exact ⟨a, b, c, by rw [htypes]; exact d, e⟩
    · exact (List.nodup_cons.mp h1).2
    · intro s hsmem r hr
      rw [hsigs] at hr
      rcases List.mem_append.mp hr with hr | hr
      · exact hfresh s (List.mem_cons_of_mem _ hsmem) r hr
      · have hrnr : r = nr := by simpa using hr
        rw [hrnr, hmd5]
        intro hEq
        exact (List.nodup_cons.mp h1).1 (by rw [hEq]; exact List.mem_map_of_mem _ hsmem)

/-- Claim C2 (amended): for N sequential calls sharing one link_id, the
assigned versions are exactly 1..N — contiguous from 1, no gaps or
repeats, each computed as the count of records already in the group plus
one — PROVIDED the contents are pairwise distinct and fresh and
relationship copying is not requested. (With `copy_rels` and a prior
chain record holding relationships, the mid-persist makes the new record
count itself and the claimed numbering fails, as the counterexample
shows.) -/
theorem C2_amended (db : Db) (link : String) (subs : List Submission)
    (hl : link ≠ "") (hsave : db.saveError = none)
    (hvalid : ∀ sub ∈ subs, sub.data ≠ "" ∧ sub.title ≠ "" ∧ sub.data_type ≠ "" ∧
      sub.data_type ∈ db.sigTypes ∧ sub.source ≠ "")
    (hnodup : (subs.map (fun s => s.data)).Nodup)
    (hfresh : ∀ sub ∈ subs, ∀ r ∈ db.sigs, r.md5 ≠ sub.data)
    (hempty : db.countByLink (some link) = 0) :
    ((submitChain db link subs).sigs.filter (fun r => r.link_id == some link)).map
        (fun r => r.version) = List.range' 1 subs.length := by
  have h := submitChain_versions link subs db hl hsave hvalid hnodup hfresh
  have hnil : db.sigs.filter (fun r => r.link_id == some link) = [] := by
    unfold Db.countByLink at hempty
    exact List.length_eq_zero.mp hempty
  rw [h, hnil, hempty]
  simp

def sigC2 : Signature :=
  { id := some 0, md5 := "r1", data := "r1", title := "T1",
    data_type := "yara", link_id := some "L", version := 1,
    relationships := [⟨"Indicator", "42", "Related_To", none, "u"⟩] }

def dbC2 : Db :=
  { sigs := [sigC2], sigTypes := ["yara"], nextId := 1,
    objects := [("Indicator", "42")] }

/-- Claim C2 (counterexample): when relationship copying is requested and
the chain's existing record has relationships, the new record is
persisted before version assignment and so counts itself: it receives
version 3 although the count of existing records plus one is 2, and the
group's versions become [1, 3] — a gap. -/
theorem C2_counterexample :
    dbC2.countByLink (some "L") + 1 = 2 ∧
    (handle_signature_file dbC2 "r2" (.str "S") "u" "" "T2" "yara" (some "L")
        "" "" true none none).1 = .success 1 ∧
    ((handle_signature_file dbC2 "r2" (.str "S") "u" "" "T2" "yara" (some "L")
        "" "" true none none).2.sigs.filter (fun r => r.link_id == some "L")).map
      (fun r => r.version) = [1, 3] :=
  ⟨rfl, rfl, rfl⟩

def dbC2w : Db := { sigTypes := ["yara"] }

def subsC2 : List Submission :=
  [⟨"r1", "S", "u", "", "T1", "yara"⟩, ⟨"r2", "S", "u", "", "T2", "yara"⟩]

theorem C2_amended_witness :
    ((submitChain dbC2w "L" subsC2).sigs.filter (fun r => r.link_id == some "L")).map
      (fun r => r.version) = List.range' 1 2 :=
  C2_amended dbC2w "L" subsC2 (by decide) rfl (by decide) (by decide)
    (by decide) rfl

/-! ### Claim C4 -/

theorem count_modifyFirst_comment (hls : List Highlight) (line : Int) (comment : String)
    (hnd : (hls.map (fun h => h.line)).Nodup)
    (hany : hls.any (fun h => h.line == line) = true) :
    ((modifyFirst (fun h => h.line == line) (fun h => { h with comment := comment })
        hls).filter (fun h => h.line == line && h.comment == comment)).length = 1 := by
  induction hls with
  | nil => simp at hany
  | cons x xs ih =>
    rw [List.map_cons, List.nodup_cons] at hnd
    by_cases hx : (x.line == line) = true
    · have hxline : x.line = line := by rwa [beq_iff_eq] at hx
      unfold modifyFirst
      rw [if_pos hx, List.filter_cons]
      have hpy : (({ x with comment := comment } : Highlight).line == line
          && ({ x with comment := comment } : Highlight).comment == comment) = true := by
        simp [hxline]
      rw [if_pos hpy, List.length_cons]
      have hnone : xs.filter (fun h => h.line == line && h.comment == comment) = [] := by
        rw [List.filter_eq_nil_iff]
        intro h hmem hp
        have hEq : h.line = line := by
          simp only [Bool.and_eq_true, beq_iff_eq] at hp
          exact hp.1
        exact hnd.1 (by rw [hxline, ← hEq]; exact List.mem_map_of_mem _ hmem)
      rw [hnone]
      rfl
    · have hx' : (x.line == line) = false := by
        cases hb : (x.line == line) with
        | true => exact absurd hb hx
        | false => rfl
      have hany' : xs.any (fun h => h.line == line) = true := by
        rw [List.any_cons] at hany
        simpa [hx'] using hany
      unfold modifyFirst
      rw [if_neg hx, List.filter_cons]
      have hpn : (x.line == line && x.comment == comment) = false := by
        rw [hx', Bool.false_and]
      rw [if_neg (by simp [hpn])]
      exact ih hnd.2 hany'

/-- The record as mutated by a comment update at `line`. -/
@[reducible] def withComment (sig : Signature) (line : Int) (comment : String) : Signature :=
  let hls := modifyFirst (fun hl => hl.line == line)
    (fun hl => { hl with comment := comment }) sig.highlights
  { sig with highlights := hls }

def sigC4 : Signature :=
  { id := some 0, md5 := "x", data := "x", title := "T", data_type := "yara",
    highlights := [⟨5, "l5", "a", none, "u", 0⟩, ⟨5, "l5", "bar", none, "u", 0⟩] }

def dbC4 : Db := { sigs := [sigC4], sigTypes := ["yara"], nextId := 1 }

/-- Claim C4 (counterexample): on a record holding two highlights at the
same line (reachable, since insertion does not reject duplicate lines),
a successful comment update leaves TWO highlights bearing the line/comment
pair, not exactly one. -/
theorem C4_counterexample :
    (update_signature_highlight_comment dbC4 0 "bar" 5 "alice").1 = .res true none ∧
    ((update_signature_highlight_comment dbC4 0 "bar" 5 "alice").2.findById 0).map
        (fun r => (r.highlights.filter
          (fun h => h.line == 5 && h.comment == "bar")).length) = some 2 :=
  ⟨rfl, rfl⟩

/-- Claim C4 (amended): `update_signature_highlight_comment` locates the
first highlight with the exact line, mutates its comment and persists;
when the record's highlight lines are duplicate-free, exactly one
highlight afterwards bears that line/comment pair. If no highlight
matches, it returns `{'success': False, 'message': 'Could not find
highlight.'}` as a soft failure and leaves the record unchanged. -/
theorem C4_amended (db : Db) (sid : Nat) (comment : String) (line : Int)
    (analyst : String) (sig : Signature)
    (h : db.findById sid = some sig) (hsave : db.saveError = none) :
    (sig.highlights.any (fun hl => hl.line == line) = true →
      (sig.highlights.map (fun hl => hl.line)).Nodup →
      (update_signature_highlight_comment db sid comment line analyst).1 = .res true none ∧
      ∃ sig', (update_signature_highlight_comment db sid comment line analyst).2.findById sid
          = some sig' ∧
        (sig'.highlights.filter
          (fun hl => hl.line == line && hl.comment == comment)).length = 1) ∧
    (sig.highlights.any (fun hl => hl.line == line) = false →
      (update_signature_highlight_comment db sid comment line analyst)
        = (.res false (some "Could not find highlight."), db)) := by
  have hsid : sig.id = some sid := by
    have := List.find?_some h
    rwa [beq_iff_eq] at this
  constructor
  · intro hany hnd
    have hsid' : (withComment sig line comment).id = some sid := hsid
    have hkey : update_signature_highlight_comment db sid comment line analyst
        = (.res true none, { db with sigs := db.sigs.map (fun r =>
            if r.id == some sid then withComment sig line comment else r) }) := by
      unfold update_signature_highlight_comment
      rw [h]
      simp only [hany, if_true]
      rw [save_existing db (withComment sig line comment) sid hsid' hsave]
    refine ⟨by rw [hkey], ?_⟩
    refine ⟨withComment sig line comment, ?_, ?_⟩
    · rw [hkey]
      exact findById_map_replace db _ sid hsid' (by rw [h]; rfl)
    · exact count_modifyFirst_comment sig.highlights line comment hnd hany
  · intro hnone
    unfold update_signature_highlight_comment
    rw [h]
    simp only [hnone, Bool.false_eq_true, if_false]

def sigC4w : Signature :=
  { id := some 0, md5 := "x", data := "x", title := "T", data_type := "yara",
    highlights := [⟨5, "l5", "a", none, "u", 0⟩] }

def dbC4w : Db := { sigs := [sigC4w], sigTypes := ["yara"], nextId := 1 }

theorem C4_amended_witness :
    (update_signature_highlight_comment dbC4w 0 "bar" 5 "alice").1 = .res true none :=
  ((C4_amended dbC4w 0 "bar" 5 "alice" sigC4w rfl rfl).1 (by decide) (by decide)).1

/-! ### Claim C5 -/

theorem length_filter_lt_of_any (hls : List Highlight) (line : Int)
    (hany : hls.any (fun h => h.line == line) = true) :
    (hls.filter (fun h => h.line != line)).length < hls.length := by
  induction hls with
  | nil => simp at hany
  | cons x xs ih =>
    rw [List.filter_cons]
    by_cases hx : (x.line == line) = true
    · have hb : (x.line != line) = false := by simp [bne, hx]
      rw [if_neg (by simp [hb])]
      exact Nat.lt_succ_of_le (List.length_filter_le _ _)
    · have hx' : (x.line == line) = false := by
        cases hb : (x.line == line) with
        | true => exact absurd hb hx
        | false => rfl
      have hany' : xs.any (fun h => h.line == line) = true := by
        rw [List.any_cons] at hany
        simpa [hx'] using hany
      have hb : (x.line != line) = true := by simp [bne, hx']
      rw [if_pos hb, List.length_cons, List.length_cons]
      exact Nat.succ_lt_succ (ih hany')

theorem filter_eq_self_of_none (hls : List Highlight) (line : Int)
    (hnone : hls.any (fun h => h.line == line) = false) :
    hls.filter (fun h => h.line != line) = hls := by
  rw [List.filter_eq_self]
  intro a ha
  have hx : (a.line == line) = false := by
    rw [List.any_eq_false] at hnone
    have := hnone a ha
    cases hb : (a.line == line) with
    | true => exact absurd hb this
    | false => rfl
  simp [bne, hx]

/-- Claim C5: `delete_highlight` removes all highlights matching the given
line (the removal itself modelled from the spec) and reports success
exactly when the highlight count strictly decreased: on an existing line
the count strictly decreases and the record persists with the filtered
list; on a missing line the highlights are unchanged and the result is
`{'success': False}` with no state change. -/
theorem C5_delete_highlight (db : Db) (sid : Nat) (line : Int) (analyst : String)
    (sig : Signature) (h : db.findById sid = some sig) (hsave : db.saveError = none) :
    (sig.highlights.any (fun hl => hl.line == line) = true →
      (delete_highlight db sid line analyst).1 = .ok ∧
      ∃ sig', (delete_highlight db sid line analyst).2.findById sid = some sig' ∧
        sig'.highlights = sig.highlights.filter (fun hl => hl.line != line) ∧
        sig'.highlights.length < sig.highlights.length) ∧
    (sig.highlights.any (fun hl => hl.line == line) = false →
      (delete_highlight db sid line analyst) = (.failed, db)) := by
  have hsid : sig.id = some sid := by
    have := List.find?_some h
    rwa [beq_iff_eq] at this
  have hsid' : (sig.remove_highlight line).id = some sid := hsid
  constructor
  · intro hany
    have hlt : (sig.remove_highlight line).highlights.length < sig.highlights.length :=
      length_filter_lt_of_any sig.highlights line hany
    have hkey : delete_highlight db sid line analyst
        = (.ok, { db with sigs := db.sigs.map (fun r =>
            if r.id == some sid then sig.remove_highlight line else r) }) := by
      unfold delete_highlight
      rw [h]
      simp only [hlt, if_true]
      rw [save_existing db (sig.remove_highlight line) sid hsid' hsave]
    refine ⟨by rw [hkey], sig.remove_highlight line, ?_, rfl, hlt⟩
    rw [hkey]
    exact findById_map_replace db _ sid hsid' (by rw [h]; rfl)
  · intro hnone
    have hfe : (sig.remove_highlight line).highlights = sig.highlights :=
      filter_eq_self_of_none sig.highlights line hnone
    have hnl : ¬ ((sig.remove_highlight line).highlights.length
        < sig.highlights.length) := by
      rw [hfe]
      exact Nat.lt_irrefl _
    unfold delete_highlight
    rw [h]
    simp only [hnl, if_false]

def sigC5 : Signature :=
  { id := some 0, md5 := "x", data := "x", title := "T", data_type := "yara",
    highlights := [⟨5, "l5", "a", none, "u", 0⟩, ⟨7, "l7", "b", none, "u", 0⟩] }

def dbC5 : Db := { sigs := [sigC5], sigTypes := ["yara"], nextId := 1 }

theorem C5_delete_highlight_witness :
    (delete_highlight dbC5 0 5 "alice").1 = .ok :=
  ((C5_delete_highlight dbC5 0 5 "alice" sigC5 rfl rfl).1 (by decide)).1

/-! ### Claim C6 -/

def sigC6 : Signature :=
  { id := some 0, md5 := "x", data := "x", title := "T", data_type := "yara" }

def dbC6 : Db := { sigs := [sigC6], sigTypes := ["yara"], nextId := 1, admins := ["alice"] }

/-- Claim C6 (counterexample): the non-admin outcome is NOT distinguished
from the not-found outcome — `delete_signature` returns the bare boolean
`false` both for a non-admin caller on an existing record and for an
admin caller on a missing record, and the non-admin result does not
report that the record existed. -/
theorem C6_counterexample :
    (delete_signature dbC6 0 "bob").1 = false ∧
    (delete_signature dbC6 999 "alice").1 = false ∧
    (delete_signature dbC6 0 "bob").1 = (delete_signature dbC6 999 "alice").1 ∧
    (delete_signature dbC6 0 "bob").2 = dbC6 ∧
    (dbC6.findById 0).isSome = true :=
  ⟨rfl, rfl, rfl, rfl, rfl⟩

/-- Claim C6 (amended): `delete_signature` is gated by the external admin
check, but returns a bare boolean: a non-admin caller receives `false` —
the same value as the admin not-found outcome, so the permission denial
is not distinguished from not-found — and no record is removed; an admin
caller gets unconditional removal, the boolean reporting whether a
record with that id existed. -/
theorem C6_amended (db : Db) (sid : Nat) (u : String) :
    (db.is_admin u = false →
      delete_signature db sid u = (false, db)) ∧
    (db.is_admin u = true →
      (delete_signature db sid u).1 = (db.findById sid).isSome ∧
      ((db.findById sid).isSome = true →
        (delete_signature db sid u).2.sigs
          = db.sigs.filter (fun r => r.id != some sid)) ∧
      ((db.findById sid).isSome = false →
        (delete_signature db sid u).2 = db)) := by
  constructor
  · intro hna
    unfold delete_signature
    rw [hna]
    rfl
  · intro ha
    unfold delete_signature
    rw [ha]
    cases hfe : db.findById sid with
    | none => exact ⟨rfl, fun hc => by simp at hc, fun _ => rfl⟩
    | some s => exact ⟨rfl, fun _ => rfl, fun hc => by simp at hc⟩

theorem C6_amended_witness :
    delete_signature dbC6 0 "bob" = (false, dbC6) :=
  (C6_amended dbC6 0 "bob").1 rfl

/-! ### Claim C7 -/

theorem save_fail (db : Db) (sig : Signature) (m : String)
    (hsave : db.saveError = some m) :
    db.save sig = .error m := by
  unfold Db.save
  rw [hsave]

def dbC7 : Db := { sigTypes := ["yara"] }

/-- Claim C7 (counterexample): with a registered type but an id matching
no record, `update_signature_type` neither persists a change nor returns
a success-false dictionary — it raises an AttributeError by dereferencing
the missing record, so "if the type is registered, the change is
persisted" fails as stated. -/
theorem C7_counterexample :
    update_signature_type dbC7 7 "yara" "a" = (.attrError, dbC7) :=
  rfl

/-- Claim C7 (amended): if the new type is not a registered SignatureType,
the operation returns Python `None` — a "not found" signal distinguished
from the failed dictionary — and mutates no record; if the type is
registered AND a record with the id exists, the change is persisted, and
a persistence ValidationError is returned as `{'success': False}`
carrying the underlying message; if the type is registered but the id
matches no record, an AttributeError is raised instead. -/
theorem C7_amended (db : Db) (sid : Nat) (t a : String) :
    (t ∉ db.sigTypes → update_signature_type db sid t a = (.pyNone, db)) ∧
    (∀ sig, db.findById sid = some sig → t ∈ db.sigTypes →
      (db.saveError = none →
        (update_signature_type db sid t a).1 = .ok ∧
        ∃ sig', (update_signature_type db sid t a).2.findById sid = some sig' ∧
          sig'.data_type = t) ∧
      (∀ m, db.saveError = some m →
        update_signature_type db sid t a = (.failed m, db))) ∧
    (db.findById sid = none → t ∈ db.sigTypes →
      update_signature_type db sid t a = (.attrError, db)) := by
  refine ⟨?_, ?_, ?_⟩
  · intro hnot
    have hfn : db.sigTypes.find? (fun n => n == t) = none := by
      rw [List.find?_eq_none]
      intro x hx
      simp only [beq_iff_eq]
      intro hEq
      exact hnot (hEq ▸ hx)
    unfold update_signature_type
    rw [hfn]
  · intro sig h hmem
    obtain ⟨t', ht'⟩ : ∃ t', db.sigTypes.find? (fun n => n == t) = some t' :=
      Option.isSome_iff_exists.mp (List.find?_isSome.mpr ⟨t, hmem, by simp⟩)
    have htt : t' = t := by
      have := List.find?_some ht'
      rwa [beq_iff_eq] at this
    subst htt
    have hsid : sig.id = some sid := by
      have := List.find?_some h
      rwa [beq_iff_eq] at this
    have hsid' : ({ sig with data_type := t' } : Signature).id = some sid := hsid
    constructor
    · intro hsave
      have hkey : update_signature_type db sid t' a
          = (.ok, { db with sigs := db.sigs.map (fun r =>
              if r.id == some sid then { sig with data_type := t' } else r) }) := by
        unfold update_signature_type
        simp only [ht', h]
        rw [save_existing db { sig with data_type := t' } sid hsid' hsave]
      refine ⟨by rw [hkey], { sig with data_type := t' }, ?_, rfl⟩
      rw [hkey]
      exact findById_map_replace db _ sid hsid' (by rw [h]; rfl)
    · intro m hsave
      unfold update_signature_type
      simp only [ht', h]
      rw [save_fail db { sig with data_type := t' } m hsave]
  · intro hn hmem
    obtain ⟨t', ht'⟩ : ∃ t', db.sigTypes.find? (fun n => n == t) = some t' :=
      Option.isSome_iff_exists.mp (List.find?_isSome.mpr ⟨t, hmem, by simp⟩)
    unfold update_signature_type
    simp only [ht', hn]

def sigC7 : Signature :=
  { id := some 0, md5 := "x", data := "x", title := "T", data_type := "yara" }

def dbC7w : Db := { sigs := [sigC7], sigTypes := ["yara", "snort"], nextId := 1 }

theorem C7_amended_witness :
    (update_signature_type dbC7w 0 "snort" "a").1 = .ok :=
  (((C7_amended dbC7w 0 "snort" "a").2.1 sigC7 rfl (by decide)).1 rfl).1

/-! ### Claim C8 -/

/-- The record as mutated by a date update at `line`. -/
@[reducible] def withDate (sig : Signature) (line : Int) (d : String) : Signature :=
  let hls := modifyFirst (fun hl => hl.line == line)
    (fun hl => { hl with line_date := some d }) sig.highlights
  { sig with highlights := hls }

/-- Claim C8: for a matched highlight line, `update_signature_highlight_date`
accepts loosely-formatted date strings — the fuzzy parse returns the first
date-like token, ignoring surrounding non-date tokens — and for every
unparseable date input it fails with the date parser's invalid-input
error (ValueError) rather than any other fault, mutating nothing. -/
theorem C8_highlight_date (db : Db) (sid : Nat) (date : String) (line : Int)
    (analyst : String) (sig : Signature)
    (h : db.findById sid = some sig)
    (hmatch : sig.highlights.any (fun hl => hl.line == line) = true) :
    (parseFuzzy date = none →
      update_signature_highlight_date db sid date line analyst
        = (.valueError date, db)) ∧
    (∀ d, parseFuzzy date = some d → db.saveError = none →
      (update_signature_highlight_date db sid date line analyst).1 = .res true none ∧
      ∃ sig', (update_signature_highlight_date db sid date line analyst).2.findById sid
          = some sig' ∧
        sig'.highlights = modifyFirst (fun hl => hl.line == line)
          (fun hl => { hl with line_date := some d }) sig.highlights) ∧
    (∀ pre t post, isDateToken t = true → (∀ x ∈ pre, isDateToken x = false) →
      parseFuzzyTokens (pre ++ t :: post) = some t) := by
  have hsid : sig.id = some sid := by
    have := List.find?_some h
    rwa [beq_iff_eq] at this
  refine ⟨?_, ?_, ?_⟩
  · intro hp
    unfold update_signature_highlight_date
    simp only [h, hmatch, if_true, hp]
  · intro d hp hsave
    have hsid' : (withDate sig line d).id = some sid := hsid
    have hkey : update_signature_highlight_date db sid date line analyst
        = (.res true none, { db with sigs := db.sigs.map (fun r =>
            if r.id == some sid then withDate sig line d else r) }) := by
      unfold update_signature_highlight_date
      simp only [h, hmatch, if_true, hp]
      rw [save_existing db (withDate sig line d) sid hsid' hsave]
    refine ⟨by rw [hkey], withDate sig line d, ?_, rfl⟩
    rw [hkey]
    exact findById_map_replace db _ sid hsid' (by rw [h]; rfl)
  · intro pre t post hdt hpre
    unfold parseFuzzyTokens
    rw [List.find?_append]
    have hnone : pre.find? isDateToken = none := by
      rw [List.find?_eq_none]
      intro x hx
      simp [hpre x hx]
    rw [hnone, List.find?_cons_of_pos _ hdt]
    rfl

def sigC8 : Signature :=
  { id := some 0, md5 := "x", data := "x", title := "T", data_type := "yara",
    highlights := [⟨5, "l5", "", none, "u", 0⟩] }

def dbC8 : Db := { sigs := [sigC8], sigTypes := ["yara"], nextId := 1 }

theorem C8_highlight_date_witness :
    (update_signature_highlight_date dbC8 0 "wrote 2014-05-01 down" 5 "a").1
      = .res true none :=
  ((C8_highlight_date dbC8 0 "wrote 2014-05-01 down" 5 "a" sigC8 rfl
    (by decide)).2.1 "2014-05-01" rfl rfl).1

/-! ### Claim C9 -/

def dbC9 : Db := { sigTypes := ["yara"] }

/-- Claim C9 (counterexample): for an id matching no record, none of
`new_inline_comment`, `new_highlight`, `delete_highlight` returns a
structured result — each dereferences the missing record and lets an
AttributeError escape unhandled. -/
theorem C9_counterexample :
    new_inline_comment dbC9 0 "c" 1 "a" = (.attrError, dbC9) ∧
    new_highlight dbC9 0 1 "ld" "a" = (.attrError, dbC9) ∧
    delete_highlight dbC9 0 1 "a" = (.attrError, dbC9) :=
  ⟨rfl, rfl, rfl⟩

/-- Claim C9 (amended): when the id matches a record, the three operations
return structured results — persistence ValidationErrors are returned as
values rather than raised — but when the id matches no record, each lets
an AttributeError escape unhandled instead of returning a result object. -/
theorem C9_amended (db : Db) (sid : Nat) (comment line_data analyst : String)
    (line : Int) :
    (db.findById sid = none →
      (new_inline_comment db sid comment line analyst).1 = .attrError ∧
      (new_highlight db sid line line_data analyst).1 = .attrError ∧
      (delete_highlight db sid line analyst).1 = .attrError) ∧
    (∀ sig, db.findById sid = some sig → db.saveError = none →
      (new_inline_comment db sid comment line analyst).1 = .ok line ∧
      (new_highlight db sid line line_data analyst).1 = .ok ∧
      ((delete_highlight db sid line analyst).1 = .ok ∨
        (delete_highlight db sid line analyst).1 = .failed)) ∧
    (∀ sig m, db.findById sid = some sig → db.saveError = some m →
      (new_inline_comment db sid comment line analyst).1 = .valErrObj m ∧
      (new_highlight db sid line line_data analyst).1 = .valErrObj m) := by
  refine ⟨?_, ?_, ?_⟩
  · intro hn
    refine ⟨?_, ?_, ?_⟩
    · unfold new_inline_comment
      rw [hn]
    · unfold new_highlight
      rw [hn]
    · unfold delete_highlight
      rw [hn]
  · intro sig h hsave
    have hsid : sig.id = some sid := by
      have := List.find?_some h
      rwa [beq_iff_eq] at this
    refine ⟨?_, ?_, ?_⟩
    · unfold new_inline_comment
      simp only [h]
      rw [save_existing db (sig.add_inline_comment comment line analyst db.clock)
        sid hsid hsave]
    · unfold new_highlight
      simp only [h]
      rw [save_existing db (sig.add_highlight line line_data analyst db.clock)
        sid hsid hsave]
    · by_cases hlt : (sig.remove_highlight line).highlights.length
          < sig.highlights.length
      · left
        unfold delete_highlight
        simp only [h, hlt, if_true]
        rw [save_existing db (sig.remove_highlight line) sid hsid hsave]
      · right
        unfold delete_highlight
        simp only [h, hlt, if_false]
  · intro sig m h hsave
    refine ⟨?_, ?_⟩
    · unfold new_inline_comment
      simp only [h]
      rw [save_fail db (sig.add_inline_comment comment line analyst db.clock) m hsave]
    · unfold new_highlight
      simp only [h]
      rw [save_fail db (sig.add_highlight line line_data analyst db.clock) m hsave]

def sigC9 : Signature :=
  { id := some 0, md5 := "x", data := "x", title := "T", data_type := "yara" }

def dbC9w : Db := { sigs := [sigC9], sigTypes := ["yara"], nextId := 1 }

theorem C9_amended_witness :
    (new_inline_comment dbC9w 0 "c" 1 "a").1 = .ok 1 :=
  (((C9_amended dbC9w 0 "c" "ld" "a" 1).2.1) sigC9 rfl rfl).1

end Crits
